import Mathlib

/-!
# Avfile — verification of the upload orchestration and resilience layer

Shallow embedding of the state-bearing parts of the Avfile repository:

* the response cache and delivery manager of `src/js/github-api-netlify.js`
  (`withCache`, `clearCache`, `deleteRelease`, `uploadWithMetadata`);
* the fixed-window rate limiter and report handler of
  `src/netlify/functions/report-submit.js`
  (`checkReportRateLimit`, `exports.handler`);
* the two `VideoCompressionEngine` classes of `src/js/compress.js`
  (the simple engine with pass-through fallback, and the "fixed" engine
  that propagates failures), together with the progress-event traces of the
  two upload orchestrators (`handleFileSelect` in `src/js/upload-netlify.js`
  and the index-fast `handleFileSelect` embedded in `src/js/compress.js`).

JavaScript `Map`s are modelled as association lists observed only through
lookup; `Date.now()` instants are naturals (milliseconds); JS numbers used
for percentages are rationals; a fallible backend step is driven by an
explicit environment of booleans saying which `await`ed operations throw.
-/

namespace Avfile

/-! ## Response cache — `src/js/github-api-netlify.js` -/

/-- One entry of `this.cache`: `{ value, expiresAt }` (lines 83–86). -/
structure CacheEntry (α : Type) where
  value : α
  expiresAt : Nat
deriving Repr, DecidableEq

/-- The `this.cache` JS `Map`, modelled as an association list without
duplicate keys, observed only through `cacheLookup`. -/
abbrev Cache (α : Type) := List (String × CacheEntry α)

/-- `this.cache.get(key)`. -/
def cacheLookup {α : Type} (c : Cache α) (k : String) : Option (CacheEntry α) :=
  (c.find? (fun p => p.1 == k)).map Prod.snd

/-- `this.cache.set(key, entry)`: replaces any existing binding of `key`.
Insertion order of a JS `Map` is not observable through `get`, so the new
binding is simply consed in front of the remaining entries. -/
def cacheSet {α : Type} (c : Cache α) (k : String) (e : CacheEntry α) : Cache α :=
  (k, e) :: c.filter (fun p => ¬ p.1 = k)

/-- `this.cache.delete(key)` (used by `deleteRelease`, line 206). -/
def cacheDelete {α : Type} (c : Cache α) (k : String) : Cache α :=
  c.filter (fun p => ¬ p.1 = k)

/-- `this.cacheTTL = 3600 * 1000` (one hour, constructor line 11). -/
def cacheTTL : Nat := 3600 * 1000

/-- The cache-miss tail of `withCache` (lines 80–88): run `fn`; if it
throws the error propagates and the cache is untouched, otherwise the
value is stored with `expiresAt = now + this.cacheTTL` and returned.
The third component records whether `fn` was invoked. -/
def withCacheMiss {ε α : Type} (now : Nat) (key : String) (compute : Except ε α)
    (c : Cache α) : Except ε α × Cache α × Bool :=
  match compute with
  | Except.error e => (Except.error e, c, true)
  | Except.ok v => (Except.ok v, cacheSet c key ⟨v, now + cacheTTL⟩, true)

/-- `withCache(key, fn)` (lines 71–89): on `cached && now < cached.expiresAt`
return the cached value without invoking `fn`; otherwise fall through to
the miss path. -/
def withCache {ε α : Type} (now : Nat) (key : String) (compute : Except ε α)
    (c : Cache α) : Except ε α × Cache α × Bool :=
  match cacheLookup c key with
  | some e =>
    if now < e.expiresAt then (Except.ok e.value, c, false)
    else withCacheMiss now key compute c
  | none => withCacheMiss now key compute c

/-- `key.includes(pattern)` — substring containment on the underlying
character lists. -/
def strContains (s pat : String) : Bool :=
  decide (pat.data <:+: s.data)

/-- `clearCache(pattern)` (lines 313–327): with a pattern, delete every
entry whose key contains it; with `none`, clear the whole map. -/
def clearCache {α : Type} (pattern : Option String) (c : Cache α) : Cache α :=
  match pattern with
  | none => []
  | some pat => c.filter (fun p => ¬ strContains p.1 pat = true)

/-- Cache key of `getFileInfo` (line 169): `` `file:${releaseId}` ``. -/
def fileInfoKey (releaseId : Nat) : String := "file:" ++ toString releaseId

/-- Cache key of `getLatestReleases` (line 263):
`` `releases:latest:${limit}` ``. -/
def latestReleasesKey (limit : Nat) : String := "releases:latest:" ++ toString limit

/-- Values stored in the manager's cache: a file-info record (keyed
`file:<id>`) or a listing of recent release ids (keyed
`releases:latest:<limit>`). -/
inductive CacheValue where
  | fileInfo (releaseId : Nat)
  | releaseList (ids : List Nat)
deriving Repr, DecidableEq

/-- The cache effect of a successful `deleteRelease(releaseId)`
(lines 193–210): after the backend call succeeds, exactly
`this.cache.delete('file:' + releaseId)` runs — no other key is touched. -/
def deleteReleaseCacheEffect (releaseId : Nat) (c : Cache CacheValue) :
    Cache CacheValue :=
  cacheDelete c (fileInfoKey releaseId)

/-- The cached read of `getLatestReleases(limit)` (lines 262–280):
`withCache('releases:latest:' + limit, fn)` where `fn` fetches a fresh
listing. -/
def getLatestReleasesCached (now limit : Nat) (fresh : List Nat)
    (c : Cache CacheValue) : Except String CacheValue × Cache CacheValue × Bool :=
  withCache now (latestReleasesKey limit) (Except.ok (CacheValue.releaseList fresh)) c

/-! ## Rate limiter — `src/netlify/functions/report-submit.js` -/

/-- The fixed window: `3600 * 1000` ms (line 179). -/
def reportRateWindow : Nat := 3600 * 1000

/-- One value of the `reportRateLimit` map: `{ count, resetTime }`. -/
structure RateRecord where
  count : Nat
  resetTime : Nat
deriving Repr, DecidableEq

/-- `checkReportRateLimit(clientIp)` (lines 177–196) for one client:
`st` is the client's current map entry (or `none` for a fresh client).
A missing entry is created as `{ count: 0, resetTime: now + window }`;
if `now > resetTime` the record is reset; the count is incremented
unconditionally; the call is allowed iff the post-increment count is at
most 10. Returns the allow decision and the updated record. -/
def checkReportRateLimit (now : Nat) (st : Option RateRecord) : Bool × RateRecord :=
  let record := st.getD ⟨0, now + reportRateWindow⟩
  let record := if now > record.resetTime then ⟨0, now + reportRateWindow⟩ else record
  let record : RateRecord := ⟨record.count + 1, record.resetTime⟩
  (record.count ≤ 10, record)

/-- Runs `checkReportRateLimit` once per instant in `ts` against the same
client, threading the map entry, and collects the allow decisions. -/
def rlRun (ts : List Nat) (st : Option RateRecord) : List Bool × Option RateRecord :=
  match ts with
  | [] => ([], st)
  | t :: rest =>
    let step := checkReportRateLimit t st
    let tail := rlRun rest (some step.2)
    (step.1 :: tail.1, tail.2)

/-! ## Report handler — `src/netlify/functions/report-submit.js` -/

/-- `REPORT_REASONS` (lines 30–37): the fixed enumerated reason set. -/
def REPORT_REASONS : List (String × String) :=
  [("copyright", "著作権侵害"),
   ("illegal", "違法コンテンツ"),
   ("harassment", "ハラスメント・脅迫"),
   ("private", "プライバシー侵害"),
   ("malware", "マルウェア・ウイルス"),
   ("other", "その他")]

/-- Property names every plain JS object literal inherits from
`Object.prototype`; for each of these, `REPORT_REASONS[name]` evaluates to
the inherited member (a function, or `Object.prototype` itself for
`__proto__`), which is truthy. -/
def objectPrototypeProps : List String :=
  ["constructor", "hasOwnProperty", "isPrototypeOf", "propertyIsEnumerable",
   "toLocaleString", "toString", "valueOf", "__proto__",
   "__defineGetter__", "__defineSetter__", "__lookupGetter__", "__lookupSetter__"]

/-- Truthiness of `REPORT_REASONS[body.reason]` (line 244) under JS
property-lookup semantics: an own key maps to a non-empty string (truthy),
and the names inherited from `Object.prototype` are also truthy. -/
def reasonPropTruthy (r : String) : Bool :=
  (REPORT_REASONS.lookup r).isSome || objectPrototypeProps.contains r

/-- The parsed request body of a report submission; a missing or falsy
field is modelled as the empty string (the only falsy JS string). -/
structure ReportBody where
  file_url : String
  release_id : String
  reason : String
  additionalInfo : String
deriving Repr, DecidableEq

/-- Observable outcome of one POST to `report-submit`. -/
inductive ReportOutcome where
  | rateLimited
  | badRequest (msg : String)
  | webhookAttempted (reason : String)
deriving Repr, DecidableEq

/-- The POST path of `exports.handler` (lines 222–299): the rate limit is
checked (and the counter incremented) first; only if allowed is the body
examined. `body` is the result of `JSON.parse(event.body || '{}')`
(`Except.error` = parse exception, caught as a 400). A body passing both
validations reaches `sendDiscordWebhook` (`webhookAttempted`). Returns the
outcome and the client's updated rate record. -/
def reportSubmitPOST (now : Nat) (st : Option RateRecord)
    (body : Except String ReportBody) : ReportOutcome × RateRecord :=
  let rl := checkReportRateLimit now st
  if rl.1 = false then (ReportOutcome.rateLimited, rl.2)
  else
    match body with
    | Except.error e => (ReportOutcome.badRequest e, rl.2)
    | Except.ok b =>
      if b.file_url = "" ∨ b.release_id = "" ∨ b.reason = "" then
        (ReportOutcome.badRequest "Missing required fields: file_url, release_id, reason", rl.2)
      else if reasonPropTruthy b.reason = false then
        (ReportOutcome.badRequest ("Invalid reason: " ++ b.reason), rl.2)
      else
        (ReportOutcome.webhookAttempted b.reason, rl.2)

/-! ## Compression engines — `src/js/compress.js`

The file contains two `VideoCompressionEngine` classes: the *simple*
engine (`js/compress-simple.js`, with pass-through fallback) and the
*fixed* engine (`js/compress.js (Fixed)`, which propagates failures).
A progress callback invocation is a `(percent, message)` pair; which
`await`ed backend steps throw is dictated by an explicit environment. -/

/-- A progress-callback invocation `onProgress(percent, message)`. -/
abbrev PEvent := Nat × String

/-- The file handed to `compress`: name, declared byte size, raw bytes. -/
structure FileV where
  name : String
  size : Nat
  data : List Nat
deriving Repr, DecidableEq

/-- What `compress` returns: the original input object unmodified
(pass-through), or a freshly encoded blob. -/
inductive CompressResult where
  | original (f : FileV)
  | encoded (bytes : List Nat)
deriving Repr, DecidableEq

/-- Failure environment of the simple engine's backend: whether
`window.FFmpeg` is present and which `await`ed steps succeed; `output`
is the byte content of `output.mp4` when the encode succeeds. -/
structure BackendEnv where
  ffmpegAvailable : Bool
  loadOk : Bool
  readFileOk : Bool
  writeOk : Bool
  runOk : Bool
  readOutputOk : Bool
  unlinkOk : Bool
  output : List Nat
deriving Repr, DecidableEq

/-- `fallbackCompress(file, onProgress)` of the simple engine
(lines 135–153): emits 50%, then 100% (with a size-dependent message),
and returns the file unmodified in both branches. -/
def fallbackCompress (f : FileV) : List PEvent × CompressResult :=
  if f.size ≤ 100 * 1024 * 1024 then
    ([(50, "Optimizing..."), (100, "Ready")], CompressResult.original f)
  else
    ([(50, "Optimizing..."), (100, "File prepared")], CompressResult.original f)

/-- `compressWithFFmpeg(file, onProgress)` of the simple engine
(lines 60–130): progress 20/30, `load` (may throw), 40, `readFile` and
`FS writeFile` (may throw), 50, `ffmpeg.run` (may throw), 80,
`FS readFile` of the output (may throw), best-effort unlink, 100.
Any throw is caught and the call degrades to `fallbackCompress`,
keeping the events already emitted. -/
def compressWithFFmpeg (env : BackendEnv) (f : FileV) : List PEvent × CompressResult :=
  let pre1 := [(20, "Loading video..."), (30, "Initializing encoder...")]
  if env.loadOk = false then
    (pre1 ++ (fallbackCompress f).1, (fallbackCompress f).2)
  else
    let pre2 := pre1 ++ [(40, "Reading file...")]
    if env.readFileOk = false ∨ env.writeOk = false then
      (pre2 ++ (fallbackCompress f).1, (fallbackCompress f).2)
    else
      let pre3 := pre2 ++ [(50, "Compressing video...")]
      if env.runOk = false then
        (pre3 ++ (fallbackCompress f).1, (fallbackCompress f).2)
      else
        let pre4 := pre3 ++ [(80, "Finalizing...")]
        if env.readOutputOk = false then
          (pre4 ++ (fallbackCompress f).1, (fallbackCompress f).2)
        else
          (pre4 ++ [(100, "Complete!")], CompressResult.encoded env.output)

/-- `compress(file, onProgress)` of the simple engine (lines 35–55):
emits 10%, then either the FFmpeg path (when `window.FFmpeg.FFmpeg`
exists) or the fallback. The inner paths never throw, so the outer
`catch` (progress 100, return the file) is unreachable. -/
def compressSimple (env : BackendEnv) (f : FileV) : List PEvent × CompressResult :=
  let pre := [(10, "Preparing file...")]
  if env.ffmpegAvailable then
    (pre ++ (compressWithFFmpeg env f).1, (compressWithFFmpeg env f).2)
  else
    (pre ++ (fallbackCompress f).1, (fallbackCompress f).2)

/-- Failure environment of the fixed engine: whether `waitUntilReady`
returns within its bounded wait, which `await`ed steps succeed, and the
encoded output bytes. -/
structure FixedEnv where
  readyOk : Bool
  readFileOk : Bool
  writeOk : Bool
  runOk : Bool
  readOutputOk : Bool
  unlinkOk : Bool
  output : List Nat
deriving Repr, DecidableEq

/-- `compress(file, onProgress)` of the fixed engine (lines 300–360),
together with `runCompression` (lines 412–447): `waitUntilReady` (throws
on timeout), 5%, `readFile` and `FS writeFile` (may throw), 15%, 20%,
`runCompression` (30%, `ffmpeg.run` which may throw, 85%), 95%,
`FS readFile` of the output (may throw), best-effort unlink of the two
staged files (a failure is logged, both files then remain), 100%.
The outer `catch` rethrows `Compression failed: <message>`.
Returns the events emitted, the names still staged in the FFmpeg FS at
exit, and the outcome (`Except.error` = the call threw). -/
def compressFixed (env : FixedEnv) (f : FileV) :
    List PEvent × List String × Except String CompressResult :=
  if env.readyOk = false then
    ([], [], Except.error "Compression failed: FFmpeg initialization timeout")
  else if env.readFileOk = false then
    ([], [], Except.error "Compression failed: readFile error")
  else if env.writeOk = false then
    ([], [], Except.error "Compression failed: FS write error")
  else
    let pre1 := [(5, "Loading video..."), (15, "Analyzing video..."),
                 (20, "Starting compression..."), (30, "Encoding video...")]
    if env.runOk = false then
      (pre1, ["input.mp4"], Except.error "Compression failed: FFmpeg execution failed")
    else
      let pre2 := pre1 ++ [(85, "Finalizing..."), (95, "Finalizing...")]
      if env.readOutputOk = false then
        (pre2, ["input.mp4", "output.mp4"], Except.error "Compression failed: FS read error")
      else if env.unlinkOk then
        (pre2 ++ [(100, "Complete!")], [], Except.ok (CompressResult.encoded env.output))
      else
        (pre2 ++ [(100, "Complete!")], ["input.mp4", "output.mp4"],
         Except.ok (CompressResult.encoded env.output))

/-! ## Progress composition and pipeline traces -/

/-- The percent a sub-operation reporting `local` contributes to the
caller's scale under a phase mapping `(offset, weight)`:
`offset + local * weight / 100`. The pipeline's composition sites are
instances of this scheme (proved in the C4 theorem). -/
def composeProgress (offset weight localPct : ℚ) : ℚ :=
  offset + localPct * weight / 100

/-- `clamp(x, lo, hi)` as the spec words it. -/
def clampQ (x lo hi : ℚ) : ℚ := max lo (min x hi)

/-- The width `updateProgress(percent, message)` gives the progress bar:
`Math.min(percent, 100)` (`src/js/upload-netlify.js` line 194). -/
def updateProgressBar (percent : ℚ) : ℚ := min percent 100

/-- Composition of the compression phase in `upload-netlify.js`
`handleFileSelect` (line 115): `percent * 0.5`. -/
def netlifyCompressCompose (p : ℚ) : ℚ := p * 0.5

/-- Composition of the upload phase in `upload-netlify.js`
`handleFileSelect` (line 143): `50 + percent * 0.5`. -/
def netlifyUploadCompose (p : ℚ) : ℚ := 50 + p * 0.5

/-- Composition of the compression phase in the index-fast
`handleFileSelect` (`src/js/compress.js` line 568): `percent * 0.4`. -/
def fastCompressCompose (p : ℚ) : ℚ := p * 0.4

/-- Composition of the upload phase in the index-fast `handleFileSelect`
(`src/js/compress.js` line 594): `40 + percent * 0.6`. -/
def fastUploadCompose (p : ℚ) : ℚ := 40 + p * 0.6

/-- Composition inside `uploadWithMetadata`
(`src/js/github-api-netlify.js` line 237): `25 + percent * 0.75`. -/
def uploadAssetCompose (p : ℚ) : ℚ := 25 + p * 0.75

/-- Local progress events of a successful `uploadAsset`
(`src/js/github-api-netlify.js` lines 122–161): 50%, then 100%. -/
def uploadAssetEvents : List (ℚ × String) :=
  [(50, "Sending to server..."), (100, "Upload complete")]

/-- Local progress events of a successful `uploadWithMetadata`
(lines 219–255): 5%, 25%, the `uploadAsset` events composed through
`25 + percent * 0.75`, then 100%. -/
def uploadWithMetadataEvents : List (ℚ × String) :=
  [(5, "Creating release..."), (25, "Uploading file to server...")] ++
    uploadAssetEvents.map (fun e => (uploadAssetCompose e.1, e.2)) ++
    [(100, "Upload complete!")]

/-- Global percent sequence a successful `upload-netlify.js`
`handleFileSelect` run delivers to `updateProgress`, given the local
percent trace `cl` of the compression phase: compression composed at
`percent * 0.5`, then the fixed 50%, the upload phase composed at
`50 + percent * 0.5`, and the final 100% (lines 110–161). -/
def netlifyPipelineTrace (cl : List ℚ) : List ℚ :=
  cl.map netlifyCompressCompose ++ [50] ++
    (uploadWithMetadataEvents.map (fun e => netlifyUploadCompose e.1)) ++ [100]

/-- Global percent sequence a successful index-fast `handleFileSelect`
run delivers to `updateProgress` (`src/js/compress.js` lines 560–614):
an initial fixed 5%, compression composed at `percent * 0.4`, the fixed
40%, the upload phase composed at `40 + percent * 0.6`, and the final
100%. -/
def fastPipelineTrace (cl : List ℚ) : List ℚ :=
  [5] ++ cl.map fastCompressCompose ++ [40] ++
    (uploadWithMetadataEvents.map (fun e => fastUploadCompose e.1)) ++ [100]

/-- The percents of a compression engine's event trace, as rationals. -/
def tracePercents (evs : List PEvent) : List ℚ :=
  (evs.map Prod.fst).map (fun n => (n : ℚ))

end Avfile

namespace Avfile

/-! ## Helper lemmas -/

theorem checkReportRateLimit_fresh (now : Nat) :
    checkReportRateLimit now none = (true, ⟨1, now + reportRateWindow⟩) := by
  have h : ¬ now > now + reportRateWindow := by omega
  simp [checkReportRateLimit, h]

theorem checkReportRateLimit_no_reset (now : Nat) (st : RateRecord)
    (h : ¬ now > st.resetTime) :
    checkReportRateLimit now (some st) =
      (decide (st.count + 1 ≤ 10), ⟨st.count + 1, st.resetTime⟩) := by
  simp [checkReportRateLimit, h]

theorem checkReportRateLimit_reset (now : Nat) (st : RateRecord)
    (h : now > st.resetTime) :
    checkReportRateLimit now (some st) = (true, ⟨1, now + reportRateWindow⟩) := by
  simp [checkReportRateLimit, h]

theorem rlRun_no_reset (ts : List Nat) (st : RateRecord)
    (h : ∀ t ∈ ts, ¬ t > st.resetTime) :
    rlRun ts (some st) =
      ((List.range ts.length).map (fun i => decide (st.count + i + 1 ≤ 10)),
        some ⟨st.count + ts.length, st.resetTime⟩) := by
  induction ts generalizing st with
  | nil => simp [rlRun]
  | cons t rest ih =>
    have ht : ¬ t > st.resetTime := h t (List.mem_cons_self t rest)
    have hrest : ∀ x ∈ rest, ¬ x > (⟨st.count + 1, st.resetTime⟩ : RateRecord).resetTime :=
      fun x hx => h x (List.mem_cons_of_mem t hx)
    have hstep := checkReportRateLimit_no_reset t st ht
    have hih := ih ⟨st.count + 1, st.resetTime⟩ hrest
    simp only [rlRun, hstep, hih, Prod.mk.injEq]
    refine ⟨?_, ?_⟩
    · rw [List.length_cons, List.range_succ_eq_map, List.map_cons, List.map_map]
      simp only [List.cons.injEq]
      refine ⟨by norm_num, ?_⟩
      refine List.map_congr_left (fun i _ => ?_)
      simp only [Function.comp_apply, decide_eq_decide]
      omega
    · have h2 : st.count + 1 + rest.length = st.count + (rest.length + 1) := by omega
      rw [h2, List.length_cons]

end Avfile

/-- C2: the per-client rate limiter is a fixed 1-hour window with ceiling
10: for a fresh client, calls 1–10 within one window return `true`, call
11 returns `false` (the rejected call still incremented the counter to
11); and once the current instant passes the stored reset instant, the
counter is reset and the next call returns `true` with post-increment
count 1 and a new reset instant `now + window`. -/
theorem c2_rate_limiter_fixed_window (t0 : Nat) (ts : List Nat) (now : Nat)
    (st : Avfile.RateRecord)
    (hlen : ts.length = 10)
    (hwin : ∀ t ∈ ts, ¬ t > t0 + Avfile.reportRateWindow)
    (hpassed : now > st.resetTime) :
    (Avfile.rlRun (t0 :: ts) none).1 =
      [true, true, true, true, true, true, true, true, true, true, false]
    ∧ (Avfile.rlRun (t0 :: ts) none).2 = some ⟨11, t0 + Avfile.reportRateWindow⟩
    ∧ Avfile.checkReportRateLimit now (some st) =
        (true, ⟨1, now + Avfile.reportRateWindow⟩) := by
  have hfresh := Avfile.checkReportRateLimit_fresh t0
  have hrun := Avfile.rlRun_no_reset ts ⟨1, t0 + Avfile.reportRateWindow⟩ hwin
  refine ⟨?_, ?_, Avfile.checkReportRateLimit_reset now st hpassed⟩
  · simp only [Avfile.rlRun, hfresh, hrun, hlen]
    rfl
  · simp only [Avfile.rlRun, hfresh, hrun, hlen]

/-- Witness for C2 at a fresh client calling 11 times at instant 0, and a
client whose record `⟨7, 3⟩` is observed at instant 4 (past the reset). -/
theorem c2_rate_limiter_fixed_window_witness :
    (Avfile.rlRun (0 :: List.replicate 10 0) none).1 =
      [true, true, true, true, true, true, true, true, true, true, false]
    ∧ (Avfile.rlRun (0 :: List.replicate 10 0) none).2 =
        some ⟨11, 0 + Avfile.reportRateWindow⟩
    ∧ Avfile.checkReportRateLimit 4 (some ⟨7, 3⟩) =
        (true, ⟨1, 4 + Avfile.reportRateWindow⟩) :=
  c2_rate_limiter_fixed_window 0 (List.replicate 10 0) 4 ⟨7, 3⟩ (by decide)
    (by decide) (by decide)

/-- C10: on every POST to the report endpoint the rate-limit counter is
checked and incremented before the body is parsed or the reason
validated. First conjunct, for an arbitrary client state and an
arbitrary body (parseable or not, valid or not): the client's updated
record is exactly the limiter's post-increment record — so requests that
fail validation still consume the 10-per-hour budget. Second conjunct:
once the budget is exhausted, even a request with an unparseable body
receives the 429-class rejection rather than a validation failure.
Third conjunct: a client with budget remaining who sends an unparseable
body gets the validation failure, and the returned state is still the
limiter's incremented record. -/
theorem c10_rate_check_precedes_validation
    (now now2 now3 : Nat) (st st2 st3 : Option Avfile.RateRecord)
    (body body2 : Except String Avfile.ReportBody) (e3 : String)
    (hexhaust : (Avfile.checkReportRateLimit now2 st2).1 = false)
    (hallow : (Avfile.checkReportRateLimit now3 st3).1 = true) :
    (Avfile.reportSubmitPOST now st body).2 = (Avfile.checkReportRateLimit now st).2
    ∧ (Avfile.reportSubmitPOST now2 st2 body2).1 = Avfile.ReportOutcome.rateLimited
    ∧ Avfile.reportSubmitPOST now3 st3 (Except.error e3) =
        (Avfile.ReportOutcome.badRequest e3,
          (Avfile.checkReportRateLimit now3 st3).2) := by
  refine ⟨?_, ?_, ?_⟩
  · rcases body with e | b <;> simp only [Avfile.reportSubmitPOST] <;>
      split <;> first
        | rfl
        | (split <;> rfl)
        | (split <;> first | rfl | (split <;> rfl))
  · simp [Avfile.reportSubmitPOST, hexhaust]
  · simp [Avfile.reportSubmitPOST, hallow]

/-- Witness for C10: a client at count 3 inside its window sends an
unparseable body — it gets the validation failure and its counter still
moves to 4; a client at count 10 sends the same body and is answered
with the rate-limit rejection, its counter moving to 11. -/
theorem c10_rate_check_precedes_validation_witness :
    (Avfile.reportSubmitPOST 0 (some ⟨3, 100⟩)
        (Except.error "Unexpected token in JSON")).2 =
      (Avfile.checkReportRateLimit 0 (some ⟨3, 100⟩)).2
    ∧ (Avfile.reportSubmitPOST 0 (some ⟨10, 100⟩)
        (Except.error "Unexpected token in JSON")).1 =
      Avfile.ReportOutcome.rateLimited
    ∧ Avfile.reportSubmitPOST 0 (some ⟨3, 100⟩)
        (Except.error "Unexpected token in JSON") =
      (Avfile.ReportOutcome.badRequest "Unexpected token in JSON",
        (Avfile.checkReportRateLimit 0 (some ⟨3, 100⟩)).2) :=
  c10_rate_check_precedes_validation 0 0 0 (some ⟨3, 100⟩) (some ⟨10, 100⟩)
    (some ⟨3, 100⟩) (Except.error "Unexpected token in JSON")
    (Except.error "Unexpected token in JSON") "Unexpected token in JSON"
    (by decide) (by decide)

/-- C7 (code bug): the reason validation is the truthiness of the JS
property lookup `REPORT_REASONS[body.reason]`, so any `Object.prototype`
member name — here `"toString"`, which is not in the enumerated reason
set — passes validation and the submission proceeds to the Discord
webhook network call, while a plainly unknown reason is rejected with a
validation failure before any network call. -/
theorem c7_prototype_reason_reaches_webhook :
    Avfile.REPORT_REASONS.lookup "toString" = none
    ∧ Avfile.reportSubmitPOST 0 none
        (Except.ok ⟨"https://example.com/v/123", "123", "toString", ""⟩) =
      (Avfile.ReportOutcome.webhookAttempted "toString", ⟨1, Avfile.reportRateWindow⟩)
    ∧ Avfile.reportSubmitPOST 0 none
        (Except.ok ⟨"https://example.com/v/123", "123", "not-a-real-reason", ""⟩) =
      (Avfile.ReportOutcome.badRequest "Invalid reason: not-a-real-reason",
        ⟨1, Avfile.reportRateWindow⟩) := by
  refine ⟨rfl, ?_, ?_⟩ <;> rfl

namespace Avfile

theorem cacheLookup_cons {α : Type} (p : String × CacheEntry α) (l : Cache α)
    (k : String) :
    cacheLookup (p :: l) k = if p.1 = k then some p.2 else cacheLookup l k := by
  by_cases h : p.1 = k
  · unfold cacheLookup
    rw [List.find?_cons_of_pos _ (by simpa using h), if_pos h]
    rfl
  · unfold cacheLookup
    rw [List.find?_cons_of_neg _ (by simpa using h), if_neg h]

theorem cacheLookup_set_self {α : Type} (c : Cache α) (k : String) (e : CacheEntry α) :
    cacheLookup (cacheSet c k e) k = some e := by
  unfold cacheSet
  rw [cacheLookup_cons, if_pos rfl]

theorem cacheLookup_delete {α : Type} (c : Cache α) (k0 k : String) :
    cacheLookup (cacheDelete c k0) k = if k = k0 then none else cacheLookup c k := by
  induction c with
  | nil => simp [cacheDelete, cacheLookup]
  | cons p rest ih =>
    simp only [cacheDelete] at ih ⊢
    by_cases h2 : k = k0
    · rw [if_pos h2] at ih ⊢
      by_cases h1 : p.1 = k0
      · have hb : (decide ¬ p.1 = k0) = false := by simp [h1]
        rw [List.filter_cons, hb, if_neg (by simp)]
        exact ih
      · have hb : (decide ¬ p.1 = k0) = true := by simp [h1]
        rw [List.filter_cons, hb, if_pos rfl, cacheLookup_cons,
          if_neg (fun hc => h1 (h2 ▸ hc))]
        exact ih
    · rw [if_neg h2] at ih ⊢
      by_cases h1 : p.1 = k0
      · have hb : (decide ¬ p.1 = k0) = false := by simp [h1]
        have hpk : ¬ p.1 = k := fun hc => h2 (by rw [← hc, h1])
        rw [List.filter_cons, hb, if_neg (by simp), cacheLookup_cons, if_neg hpk]
        exact ih
      · have hb : (decide ¬ p.1 = k0) = true := by simp [h1]
        rw [List.filter_cons, hb, if_pos rfl, cacheLookup_cons, cacheLookup_cons]
        by_cases hpk : p.1 = k
        · rw [if_pos hpk, if_pos hpk]
        · rw [if_neg hpk, if_neg hpk]
          exact ih

theorem cacheLookup_delete_self {α : Type} (c : Cache α) (k : String) :
    cacheLookup (cacheDelete c k) k = none := by
  rw [cacheLookup_delete, if_pos rfl]

end Avfile

/-- C3: `withCache` serves a live cache entry without invoking `compute`;
on a miss it invokes `compute`, stores the value with expiry
`now + cacheTTL` (one hour) and returns it; a second call with the same
key within the TTL is a hit (so `compute` ran exactly once and the first
value is returned); a call after the TTL has elapsed invokes `compute`
again; and deleting the key forces the next call to recompute. -/
theorem c3_withCache_ttl {α ε : Type} (chit c : Avfile.Cache α) (khit k : String)
    (e : Avfile.CacheEntry α) (v w : α) (now now1 now2 : Nat)
    (comp : Except ε α)
    (hhit : Avfile.cacheLookup chit khit = some e) (hlive : now < e.expiresAt)
    (hmiss : Avfile.cacheLookup c k = none)
    (hin : now1 < now + Avfile.cacheTTL)
    (hout : now + Avfile.cacheTTL ≤ now2) :
    Avfile.withCache now khit comp chit = (Except.ok e.value, chit, false)
    ∧ Avfile.withCache now k (Except.ok v : Except ε α) c =
        (Except.ok v, Avfile.cacheSet c k ⟨v, now + Avfile.cacheTTL⟩, true)
    ∧ Avfile.withCache now1 k (Except.ok w : Except ε α)
        (Avfile.cacheSet c k ⟨v, now + Avfile.cacheTTL⟩) =
        (Except.ok v, Avfile.cacheSet c k ⟨v, now + Avfile.cacheTTL⟩, false)
    ∧ (Avfile.withCache now2 k (Except.ok w : Except ε α)
        (Avfile.cacheSet c k ⟨v, now + Avfile.cacheTTL⟩)).2.2 = true
    ∧ (Avfile.withCache now1 k (Except.ok w : Except ε α)
        (Avfile.cacheDelete (Avfile.cacheSet c k ⟨v, now + Avfile.cacheTTL⟩) k)).2.2
        = true := by
  have hset := Avfile.cacheLookup_set_self c k
    (⟨v, now + Avfile.cacheTTL⟩ : Avfile.CacheEntry α)
  have hdel := Avfile.cacheLookup_delete_self
    (Avfile.cacheSet c k (⟨v, now + Avfile.cacheTTL⟩ : Avfile.CacheEntry α)) k
  refine ⟨?_, ?_, ?_, ?_, ?_⟩
  · simp [Avfile.withCache, hhit, hlive]
  · simp [Avfile.withCache, Avfile.withCacheMiss, hmiss]
  · simp [Avfile.withCache, hset, hin]
  · simp [Avfile.withCache, Avfile.withCacheMiss, hset, Nat.not_lt.mpr hout]
  · simp [Avfile.withCache, Avfile.withCacheMiss, hdel]

/-- Witness for C3 on concrete runs: a live hit on `"k0"`, then on key
`"file:1"` a miss at instant 0, a hit at instant 10, a recompute at the
TTL boundary, and a recompute after deleting the key. -/
theorem c3_withCache_ttl_witness :
    Avfile.withCache 0 "k0" (Except.ok 9 : Except String Nat)
        [("k0", ⟨3, 50⟩)] = (Except.ok 3, [("k0", ⟨3, 50⟩)], false)
    ∧ Avfile.withCache 0 "file:1" (Except.ok 7 : Except String Nat) [] =
        (Except.ok 7, Avfile.cacheSet [] "file:1" ⟨7, 0 + Avfile.cacheTTL⟩, true)
    ∧ Avfile.withCache 10 "file:1" (Except.ok 8 : Except String Nat)
        (Avfile.cacheSet [] "file:1" ⟨7, 0 + Avfile.cacheTTL⟩) =
        (Except.ok 7, Avfile.cacheSet [] "file:1" ⟨7, 0 + Avfile.cacheTTL⟩, false)
    ∧ (Avfile.withCache (0 + Avfile.cacheTTL) "file:1" (Except.ok 8 : Except String Nat)
        (Avfile.cacheSet [] "file:1" ⟨7, 0 + Avfile.cacheTTL⟩)).2.2 = true
    ∧ (Avfile.withCache 10 "file:1" (Except.ok 8 : Except String Nat)
        (Avfile.cacheDelete (Avfile.cacheSet [] "file:1" ⟨7, 0 + Avfile.cacheTTL⟩)
          "file:1")).2.2 = true :=
  c3_withCache_ttl [("k0", ⟨3, 50⟩)] [] "k0" "file:1" ⟨3, 50⟩ 7 8 0 10
    (0 + Avfile.cacheTTL) (Except.ok 9) rfl (by decide) rfl (by decide) (by decide)

/-- C9: when `compute` fails, `withCache` stores nothing — on a miss
(absent key, and likewise an expired entry) the error propagates and the
cache list is returned unchanged — so any subsequent call with the same
key against that cache invokes `compute` again. -/
theorem c9_withCache_error_not_cached {α ε : Type} (c c2 : Avfile.Cache α)
    (k k2 : String) (ent : Avfile.CacheEntry α) (now now2 now3 : Nat)
    (err err2 : ε) (comp2 : Except ε α)
    (hmiss : Avfile.cacheLookup c k = none)
    (hent : Avfile.cacheLookup c2 k2 = some ent)
    (hexp : ¬ now2 < ent.expiresAt) :
    Avfile.withCache now k (Except.error err : Except ε α) c =
      (Except.error err, c, true)
    ∧ (Avfile.withCache now3 k comp2 c).2.2 = true
    ∧ Avfile.withCache now2 k2 (Except.error err2 : Except ε α) c2 =
      (Except.error err2, c2, true) := by
  refine ⟨?_, ?_, ?_⟩
  · simp [Avfile.withCache, Avfile.withCacheMiss, hmiss]
  · rcases comp2 with e2 | v2 <;> simp [Avfile.withCache, Avfile.withCacheMiss, hmiss]
  · simp [Avfile.withCache, Avfile.withCacheMiss, hent, hexp]

/-- Witness for C9: a failing compute against an empty cache, a retry that
invokes compute again, and a failing compute against an expired entry. -/
theorem c9_withCache_error_not_cached_witness :
    Avfile.withCache 0 "file:1" (Except.error "HTTP 500" : Except String Nat) [] =
      (Except.error "HTTP 500", [], true)
    ∧ (Avfile.withCache 5 "file:1" (Except.ok 7 : Except String Nat) []).2.2 = true
    ∧ Avfile.withCache 60 "file:2" (Except.error "HTTP 500" : Except String Nat)
        [("file:2", ⟨3, 50⟩)] =
      (Except.error "HTTP 500", [("file:2", ⟨3, 50⟩)], true) :=
  c9_withCache_error_not_cached [] [("file:2", ⟨3, 50⟩)] "file:1" "file:2" ⟨3, 50⟩
    0 60 5 "HTTP 500" "HTTP 500" (Except.ok 7) rfl rfl (by decide)

/-- C8 counterexample: the claim that after a successful `deleteRelease`
no cached read within the TTL returns data describing the deleted release
is false. With the listing `releases:latest:10` cached as `[123, 456]`
until instant 1000000, deleting release 123 (which removes only
`file:123`) and then calling `getLatestReleases(10)` at instant 500000
serves the stale cached listing — still containing the deleted release
123 — without invoking the fresh fetch. -/
theorem c8_counterexample :
    (Avfile.getLatestReleasesCached 500000 10 [456]
        (Avfile.deleteReleaseCacheEffect 123
          [(Avfile.latestReleasesKey 10, ⟨Avfile.CacheValue.releaseList [123, 456], 1000000⟩),
           (Avfile.fileInfoKey 123, ⟨Avfile.CacheValue.fileInfo 123, 1000000⟩)])).1 =
      Except.ok (Avfile.CacheValue.releaseList [123, 456])
    ∧ (Avfile.getLatestReleasesCached 500000 10 [456]
        (Avfile.deleteReleaseCacheEffect 123
          [(Avfile.latestReleasesKey 10, ⟨Avfile.CacheValue.releaseList [123, 456], 1000000⟩),
           (Avfile.fileInfoKey 123, ⟨Avfile.CacheValue.fileInfo 123, 1000000⟩)])).2.2 =
      false := by
  refine ⟨rfl, rfl⟩

/-- C8 amended: `deleteRelease(releaseId)` invalidates exactly the
file-lookup key `file:<releaseId>` — afterwards that key is absent, so
the next `getFileInfo` recomputes — while every other key, in particular
the `releases:latest:<limit>` listing keys, is left untouched (a cached
listing may therefore keep describing the deleted release until its TTL
expires). -/
theorem c8_deleteRelease_invalidates_only_file_key (c : Avfile.Cache Avfile.CacheValue)
    (releaseId : Nat) (k : String) (now : Nat) (v : Avfile.CacheValue)
    (hk : ¬ k = Avfile.fileInfoKey releaseId) :
    Avfile.cacheLookup (Avfile.deleteReleaseCacheEffect releaseId c)
        (Avfile.fileInfoKey releaseId) = none
    ∧ Avfile.cacheLookup (Avfile.deleteReleaseCacheEffect releaseId c) k =
        Avfile.cacheLookup c k
    ∧ (Avfile.withCache now (Avfile.fileInfoKey releaseId)
        (Except.ok v : Except String Avfile.CacheValue)
        (Avfile.deleteReleaseCacheEffect releaseId c)).2.2 = true := by
  have hnone := Avfile.cacheLookup_delete_self c (Avfile.fileInfoKey releaseId)
  refine ⟨hnone, ?_, ?_⟩
  · rw [Avfile.deleteReleaseCacheEffect, Avfile.cacheLookup_delete, if_neg hk]
  · simp [Avfile.withCache, Avfile.withCacheMiss, Avfile.deleteReleaseCacheEffect, hnone]

/-- Witness for the amended C8: deleting release 123 removes `file:123`,
leaves `releases:latest:10` in place, and forces the next file-info read
to recompute. -/
theorem c8_deleteRelease_invalidates_only_file_key_witness :
    Avfile.cacheLookup (Avfile.deleteReleaseCacheEffect 123
        [(Avfile.latestReleasesKey 10, ⟨Avfile.CacheValue.releaseList [123, 456], 1000000⟩),
         (Avfile.fileInfoKey 123, ⟨Avfile.CacheValue.fileInfo 123, 1000000⟩)])
        (Avfile.fileInfoKey 123) = none
    ∧ Avfile.cacheLookup (Avfile.deleteReleaseCacheEffect 123
        [(Avfile.latestReleasesKey 10, ⟨Avfile.CacheValue.releaseList [123, 456], 1000000⟩),
         (Avfile.fileInfoKey 123, ⟨Avfile.CacheValue.fileInfo 123, 1000000⟩)])
        (Avfile.latestReleasesKey 10) =
      Avfile.cacheLookup
        [(Avfile.latestReleasesKey 10, ⟨Avfile.CacheValue.releaseList [123, 456], 1000000⟩),
         (Avfile.fileInfoKey 123, ⟨Avfile.CacheValue.fileInfo 123, 1000000⟩)]
        (Avfile.latestReleasesKey 10)
    ∧ (Avfile.withCache 500000 (Avfile.fileInfoKey 123)
        (Except.ok (Avfile.CacheValue.fileInfo 123) : Except String Avfile.CacheValue)
        (Avfile.deleteReleaseCacheEffect 123
          [(Avfile.latestReleasesKey 10, ⟨Avfile.CacheValue.releaseList [123, 456], 1000000⟩),
           (Avfile.fileInfoKey 123, ⟨Avfile.CacheValue.fileInfo 123, 1000000⟩)])).2.2 =
      true :=
  c8_deleteRelease_invalidates_only_file_key
    [(Avfile.latestReleasesKey 10, ⟨Avfile.CacheValue.releaseList [123, 456], 1000000⟩),
     (Avfile.fileInfoKey 123, ⟨Avfile.CacheValue.fileInfo 123, 1000000⟩)]
    123 (Avfile.latestReleasesKey 10) 500000 (Avfile.CacheValue.fileInfo 123)
    (by decide)

/-- C4: for `local ∈ [0,100]` and `offset, weight ∈ [0,100]`, the width
`updateProgress` displays for the composed value `offset + local*weight/100`
is exactly `clamp(offset + local*weight/100, 0, 100)` (the raw value is
nonnegative under these bounds, so the source's `Math.min(percent, 100)`
coincides with the two-sided clamp); and each composition site of the
pipeline is an instance of the `offset + local*weight/100` scheme. -/
theorem c4_progress_composition_clamped (localPct offset weight : ℚ)
    (h0l : 0 ≤ localPct) (hl : localPct ≤ 100)
    (h0o : 0 ≤ offset) (ho : offset ≤ 100)
    (h0w : 0 ≤ weight) (hw : weight ≤ 100) :
    Avfile.updateProgressBar (Avfile.composeProgress offset weight localPct) =
      Avfile.clampQ (Avfile.composeProgress offset weight localPct) 0 100
    ∧ Avfile.netlifyCompressCompose localPct = Avfile.composeProgress 0 50 localPct
    ∧ Avfile.netlifyUploadCompose localPct = Avfile.composeProgress 50 50 localPct
    ∧ Avfile.fastCompressCompose localPct = Avfile.composeProgress 0 40 localPct
    ∧ Avfile.fastUploadCompose localPct = Avfile.composeProgress 40 60 localPct
    ∧ Avfile.uploadAssetCompose localPct = Avfile.composeProgress 25 75 localPct := by
  refine ⟨?_, ?_, ?_, ?_, ?_, ?_⟩
  · have hx : (0 : ℚ) ≤ Avfile.composeProgress offset weight localPct := by
      unfold Avfile.composeProgress
      have : (0 : ℚ) ≤ localPct * weight / 100 := by positivity
      linarith
    unfold Avfile.updateProgressBar Avfile.clampQ
    rw [max_eq_right (le_min hx (by norm_num))]
  · unfold Avfile.netlifyCompressCompose Avfile.composeProgress; ring
  · unfold Avfile.netlifyUploadCompose Avfile.composeProgress; ring
  · unfold Avfile.fastCompressCompose Avfile.composeProgress; ring
  · unfold Avfile.fastUploadCompose Avfile.composeProgress; ring
  · unfold Avfile.uploadAssetCompose Avfile.composeProgress; ring

/-- Witness for C4 at `local = 70`, `offset = 50`, `weight = 50`. -/
theorem c4_progress_composition_clamped_witness :
    Avfile.updateProgressBar (Avfile.composeProgress 50 50 70) =
      Avfile.clampQ (Avfile.composeProgress 50 50 70) 0 100
    ∧ Avfile.netlifyCompressCompose 70 = Avfile.composeProgress 0 50 70
    ∧ Avfile.netlifyUploadCompose 70 = Avfile.composeProgress 50 50 70
    ∧ Avfile.fastCompressCompose 70 = Avfile.composeProgress 0 40 70
    ∧ Avfile.fastUploadCompose 70 = Avfile.composeProgress 40 60 70
    ∧ Avfile.uploadAssetCompose 70 = Avfile.composeProgress 25 75 70 :=
  c4_progress_composition_clamped 70 50 50 (by norm_num) (by norm_num)
    (by norm_num) (by norm_num) (by norm_num) (by norm_num)

namespace Avfile

theorem fallbackCompress_original (f : FileV) :
    (fallbackCompress f).2 = CompressResult.original f := by
  unfold fallbackCompress
  split <;> rfl

theorem fallbackCompress_last (f : FileV) :
    ((fallbackCompress f).1.map Prod.fst).getLast? = some 100 := by
  unfold fallbackCompress
  split <;> rfl

theorem fallbackCompress_percents (f : FileV) :
    (fallbackCompress f).1.map Prod.fst = [50, 100] := by
  unfold fallbackCompress
  split <;> rfl

theorem getLast?_fst_append (pre evs : List PEvent)
    (h : (evs.map Prod.fst).getLast? = some 100) :
    ((pre ++ evs).map Prod.fst).getLast? = some 100 := by
  have hne : evs.map Prod.fst ≠ [] := by
    intro hc
    rw [hc] at h
    cases h
  rw [List.map_append, List.getLast?_append_of_ne_nil _ hne]
  exact h

theorem compressWithFFmpeg_fail (env : BackendEnv) (f : FileV)
    (hff : env.loadOk = false ∨ env.readFileOk = false ∨ env.writeOk = false
      ∨ env.runOk = false ∨ env.readOutputOk = false) :
    (compressWithFFmpeg env f).2 = CompressResult.original f
    ∧ ((compressWithFFmpeg env f).1.map Prod.fst).getLast? = some 100 := by
  simp only [compressWithFFmpeg]
  by_cases h1 : env.loadOk = false
  · rw [if_pos h1]
    exact ⟨fallbackCompress_original f, getLast?_fst_append _ _ (fallbackCompress_last f)⟩
  · rw [if_neg h1]
    by_cases h2 : env.readFileOk = false ∨ env.writeOk = false
    · rw [if_pos h2]
      exact ⟨fallbackCompress_original f, getLast?_fst_append _ _ (fallbackCompress_last f)⟩
    · rw [if_neg h2]
      by_cases h3 : env.runOk = false
      · rw [if_pos h3]
        exact ⟨fallbackCompress_original f, getLast?_fst_append _ _ (fallbackCompress_last f)⟩
      · rw [if_neg h3]
        by_cases h4 : env.readOutputOk = false
        · rw [if_pos h4]
          exact ⟨fallbackCompress_original f,
            getLast?_fst_append _ _ (fallbackCompress_last f)⟩
        · exfalso
          rcases hff with h | h | h | h | h
          · exact h1 h
          · exact h2 (Or.inl h)
          · exact h2 (Or.inr h)
          · exact h3 h
          · exact h4 h

end Avfile

/-- C1 counterexample: the claim that `compress` never raises and returns
the input byte-identical on every internal failure is false for the fixed
engine (`src/js/compress.js` lines 300–360): when the engine does not
become ready within the bounded wait it rethrows
`Compression failed: ...` without emitting any progress event, and it
likewise rethrows when the encode step throws. -/
theorem c1_counterexample :
    (Avfile.compressFixed ⟨false, true, true, true, true, true, []⟩
        ⟨"video.mp4", 42, [1, 2, 3]⟩).2.2 =
      Except.error "Compression failed: FFmpeg initialization timeout"
    ∧ (Avfile.compressFixed ⟨false, true, true, true, true, true, []⟩
        ⟨"video.mp4", 42, [1, 2, 3]⟩).1 = []
    ∧ (Avfile.compressFixed ⟨true, true, true, false, true, true, []⟩
        ⟨"video.mp4", 42, [1, 2, 3]⟩).2.2 =
      Except.error "Compression failed: FFmpeg execution failed" := by
  refine ⟨rfl, rfl, rfl⟩

/-- C1 amended: the pass-through guarantee holds for the simple engine
(`js/compress-simple.js` lines 35–55): whenever the backend is
unavailable or any step of the FFmpeg path throws, `compress` returns
the input file object unmodified and the last progress callback reports
100 — no failure is raised; the fixed engine's `compress`
(lines 300–360) instead propagates such failures as errors. -/
theorem c1_simple_engine_pass_through (env : Avfile.BackendEnv) (f : Avfile.FileV)
    (hfail : env.ffmpegAvailable = false ∨ env.loadOk = false
      ∨ env.readFileOk = false ∨ env.writeOk = false
      ∨ env.runOk = false ∨ env.readOutputOk = false) :
    (Avfile.compressSimple env f).2 = Avfile.CompressResult.original f
    ∧ ((Avfile.compressSimple env f).1.map Prod.fst).getLast? = some 100 := by
  simp only [Avfile.compressSimple]
  by_cases hav : env.ffmpegAvailable = true
  · rw [if_pos hav]
    have hff : env.loadOk = false ∨ env.readFileOk = false ∨ env.writeOk = false
        ∨ env.runOk = false ∨ env.readOutputOk = false := by
      rcases hfail with h | rest
      · rw [hav] at h
        cases h
      · exact rest
    obtain ⟨h1, h2⟩ := Avfile.compressWithFFmpeg_fail env f hff
    exact ⟨h1, Avfile.getLast?_fst_append _ _ h2⟩
  · rw [if_neg hav]
    exact ⟨Avfile.fallbackCompress_original f,
      Avfile.getLast?_fst_append _ _ (Avfile.fallbackCompress_last f)⟩

/-- Witness for the amended C1: the simple engine with no
`window.FFmpeg` available passes a concrete file through unchanged and
ends its progress at 100. -/
theorem c1_simple_engine_pass_through_witness :
    (Avfile.compressSimple ⟨false, true, true, true, true, true, true, []⟩
        ⟨"video.mp4", 42, [1, 2, 3]⟩).2 =
      Avfile.CompressResult.original ⟨"video.mp4", 42, [1, 2, 3]⟩
    ∧ ((Avfile.compressSimple ⟨false, true, true, true, true, true, true, []⟩
        ⟨"video.mp4", 42, [1, 2, 3]⟩).1.map Prod.fst).getLast? = some 100 :=
  c1_simple_engine_pass_through ⟨false, true, true, true, true, true, true, []⟩
    ⟨"video.mp4", 42, [1, 2, 3]⟩ (Or.inl rfl)

/-- C6 counterexample: the claim that the staged input/output files are
released on every exit path is false — when the encode step
(`ffmpeg.run`) throws, the fixed engine's `compress` rethrows without any
cleanup, leaving the staged `input.mp4` in the FFmpeg FS. -/
theorem c6_counterexample :
    (Avfile.compressFixed ⟨true, true, true, false, true, true, []⟩
        ⟨"video.mp4", 42, [1, 2, 3]⟩).2.1 = ["input.mp4"]
    ∧ (Avfile.compressFixed ⟨true, true, true, false, true, true, []⟩
        ⟨"video.mp4", 42, [1, 2, 3]⟩).2.2 =
      Except.error "Compression failed: FFmpeg execution failed" := by
  refine ⟨rfl, rfl⟩

/-- C6 amended: the transient storage is released only on the success
path — after a successful encode both staged files are unlinked, and an
unlink failure is swallowed (the call still returns the encoded blob,
with both files left staged); but on an encode failure `compress`
propagates the error and the staged `input.mp4` is not released, and on
a failure reading the output both staged files remain. -/
theorem c6_cleanup_success_path_only (out1 out2 out3 out4 : List Nat) (f : Avfile.FileV) :
    Avfile.compressFixed ⟨true, true, true, true, true, true, out1⟩ f =
      ([(5, "Loading video..."), (15, "Analyzing video..."),
        (20, "Starting compression..."), (30, "Encoding video..."),
        (85, "Finalizing..."), (95, "Finalizing..."), (100, "Complete!")],
       [], Except.ok (Avfile.CompressResult.encoded out1))
    ∧ Avfile.compressFixed ⟨true, true, true, true, true, false, out2⟩ f =
      ([(5, "Loading video..."), (15, "Analyzing video..."),
        (20, "Starting compression..."), (30, "Encoding video..."),
        (85, "Finalizing..."), (95, "Finalizing..."), (100, "Complete!")],
       ["input.mp4", "output.mp4"], Except.ok (Avfile.CompressResult.encoded out2))
    ∧ (Avfile.compressFixed ⟨true, true, true, false, true, true, out3⟩ f).2.1 =
        ["input.mp4"]
    ∧ (Avfile.compressFixed ⟨true, true, true, true, false, true, out4⟩ f).2.1 =
        ["input.mp4", "output.mp4"] := by
  refine ⟨rfl, rfl, rfl, rfl⟩

namespace Avfile

theorem compressSimple_percents (env : BackendEnv) (f : FileV) :
    (compressSimple env f).1.map Prod.fst =
      if env.ffmpegAvailable = false then [10, 50, 100]
      else if env.loadOk = false then [10, 20, 30, 50, 100]
      else if env.readFileOk = false ∨ env.writeOk = false then
        [10, 20, 30, 40, 50, 100]
      else if env.runOk = false then [10, 20, 30, 40, 50, 50, 100]
      else if env.readOutputOk = false then [10, 20, 30, 40, 50, 80, 50, 100]
      else [10, 20, 30, 40, 50, 80, 100] := by
  simp only [compressSimple, compressWithFFmpeg]
  by_cases hav : env.ffmpegAvailable = true
  · have hnotf : ¬ env.ffmpegAvailable = false := by simp [hav]
    rw [if_pos hav, if_neg hnotf]
    by_cases h1 : env.loadOk = false
    · rw [if_pos h1, if_pos h1]
      simp [List.map_append, fallbackCompress_percents]
    · rw [if_neg h1, if_neg h1]
      by_cases h2 : env.readFileOk = false ∨ env.writeOk = false
      · rw [if_pos h2, if_pos h2]
        simp [List.map_append, fallbackCompress_percents]
      · rw [if_neg h2, if_neg h2]
        by_cases h3 : env.runOk = false
        · rw [if_pos h3, if_pos h3]
          simp [List.map_append, fallbackCompress_percents]
        · rw [if_neg h3, if_neg h3]
          by_cases h4 : env.readOutputOk = false
          · rw [if_pos h4, if_pos h4]
            simp [List.map_append, fallbackCompress_percents]
          · rw [if_neg h4, if_neg h4]
            rfl
  · have hav2 : env.ffmpegAvailable = false := by
      revert hav
      cases env.ffmpegAvailable <;> simp
    rw [if_neg hav, if_pos hav2]
    simp [List.map_append, fallbackCompress_percents]

end Avfile

/-- C5 counterexample: successful full pipeline runs with decreasing
progress. In the index-fast orchestrator, after the initial fixed
`updateProgress(5, ...)` the first compression callback is composed at
weight 0.4 and reports a lower value (2 for the fixed engine's initial
5%, 4 for the simple engine's initial 10%). The `upload-netlify.js`
orchestrator can decrease as well: when the simple engine falls back
after its 80% checkpoint (output read fails), the fallback re-emits 50%,
giving 40 then 25 after composition. All three runs complete
successfully. -/
theorem c5_counterexample :
    ¬ List.Chain' (· ≤ ·) (Avfile.fastPipelineTrace (Avfile.tracePercents
        (Avfile.compressFixed ⟨true, true, true, true, true, true, [7]⟩
          ⟨"video.mp4", 42, [1, 2, 3]⟩).1))
    ∧ ¬ List.Chain' (· ≤ ·) (Avfile.fastPipelineTrace (Avfile.tracePercents
        (Avfile.compressSimple ⟨true, true, true, true, true, true, true, [7]⟩
          ⟨"video.mp4", 42, [1, 2, 3]⟩).1))
    ∧ ¬ List.Chain' (· ≤ ·) (Avfile.netlifyPipelineTrace (Avfile.tracePercents
        (Avfile.compressSimple ⟨true, true, true, true, true, false, true, [7]⟩
          ⟨"video.mp4", 42, [1, 2, 3]⟩).1)) := by
  have hfix : (Avfile.compressFixed ⟨true, true, true, true, true, true, [7]⟩
      ⟨"video.mp4", 42, [1, 2, 3]⟩).1.map Prod.fst = [5, 15, 20, 30, 85, 95, 100] := rfl
  have hsim : (Avfile.compressSimple ⟨true, true, true, true, true, true, true, [7]⟩
      ⟨"video.mp4", 42, [1, 2, 3]⟩).1.map Prod.fst = [10, 20, 30, 40, 50, 80, 100] := rfl
  have hlate : (Avfile.compressSimple ⟨true, true, true, true, true, false, true, [7]⟩
      ⟨"video.mp4", 42, [1, 2, 3]⟩).1.map Prod.fst =
      [10, 20, 30, 40, 50, 80, 50, 100] := rfl
  refine ⟨fun hchain => ?_, fun hchain => ?_, fun hchain => ?_⟩ <;>
    simp only [Avfile.tracePercents, hfix, hsim, hlate] at hchain <;>
    norm_num [Avfile.fastPipelineTrace, Avfile.netlifyPipelineTrace,
      Avfile.uploadWithMetadataEvents, Avfile.uploadAssetEvents,
      Avfile.fastCompressCompose, Avfile.fastUploadCompose,
      Avfile.netlifyCompressCompose, Avfile.netlifyUploadCompose,
      Avfile.uploadAssetCompose, List.chain'_cons] at hchain

/-- C5 amended: for the `upload-netlify.js` orchestrator, the global
percent sequence of a successful full pipeline run is non-decreasing and
ends at exactly 100, for the fixed engine's success path and for every
simple-engine path that does not fall back after the 80% checkpoint
(`readOutputOk = true`); the final value 100 also holds for every
simple-engine path and for the index-fast orchestrator — but
non-decrease fails for the index-fast orchestrator on every run and for
the `upload-netlify.js` orchestrator on the late-fallback path (see the
counterexample). -/
theorem c5_netlify_progress_monotone (env : Avfile.BackendEnv) (f : Avfile.FileV)
    (out : List Nat) (henv : env.readOutputOk = true) :
    List.Chain' (· ≤ ·) (Avfile.netlifyPipelineTrace (Avfile.tracePercents
        (Avfile.compressSimple env f).1))
    ∧ (Avfile.netlifyPipelineTrace (Avfile.tracePercents
        (Avfile.compressSimple env f).1)).getLast? = some 100
    ∧ List.Chain' (· ≤ ·) (Avfile.netlifyPipelineTrace (Avfile.tracePercents
        (Avfile.compressFixed ⟨true, true, true, true, true, true, out⟩ f).1))
    ∧ (Avfile.netlifyPipelineTrace (Avfile.tracePercents
        (Avfile.compressFixed ⟨true, true, true, true, true, true, out⟩ f).1)).getLast?
        = some 100
    ∧ (Avfile.fastPipelineTrace (Avfile.tracePercents
        (Avfile.compressSimple env f).1)).getLast? = some 100 := by
  have hchar := Avfile.compressSimple_percents env f
  have hfix : (Avfile.compressFixed ⟨true, true, true, true, true, true, out⟩ f).1.map
      Prod.fst = [5, 15, 20, 30, 85, 95, 100] := rfl
  simp only [Avfile.tracePercents, hchar, hfix]
  split_ifs <;>
    first
      | (exfalso; simp_all; done)
      | (refine ⟨?_, ?_, ?_, ?_, ?_⟩ <;>
          norm_num [Avfile.netlifyPipelineTrace, Avfile.fastPipelineTrace,
            Avfile.uploadWithMetadataEvents, Avfile.uploadAssetEvents,
            Avfile.netlifyCompressCompose, Avfile.netlifyUploadCompose,
            Avfile.fastCompressCompose, Avfile.fastUploadCompose,
            Avfile.uploadAssetCompose, List.chain'_cons, List.getLast?_cons_cons])

/-- Witness for the amended C5: the all-success simple-engine run and the
fixed engine's success run through the `upload-netlify.js` orchestrator. -/
theorem c5_netlify_progress_monotone_witness :
    List.Chain' (· ≤ ·) (Avfile.netlifyPipelineTrace (Avfile.tracePercents
        (Avfile.compressSimple ⟨true, true, true, true, true, true, true, [7]⟩
          ⟨"video.mp4", 42, [1, 2, 3]⟩).1))
    ∧ (Avfile.netlifyPipelineTrace (Avfile.tracePercents
        (Avfile.compressSimple ⟨true, true, true, true, true, true, true, [7]⟩
          ⟨"video.mp4", 42, [1, 2, 3]⟩).1)).getLast? = some 100
    ∧ List.Chain' (· ≤ ·) (Avfile.netlifyPipelineTrace (Avfile.tracePercents
        (Avfile.compressFixed ⟨true, true, true, true, true, true, [7]⟩
          ⟨"video.mp4", 42, [1, 2, 3]⟩).1))
    ∧ (Avfile.netlifyPipelineTrace (Avfile.tracePercents
        (Avfile.compressFixed ⟨true, true, true, true, true, true, [7]⟩
          ⟨"video.mp4", 42, [1, 2, 3]⟩).1)).getLast? = some 100
    ∧ (Avfile.fastPipelineTrace (Avfile.tracePercents
        (Avfile.compressSimple ⟨true, true, true, true, true, true, true, [7]⟩
          ⟨"video.mp4", 42, [1, 2, 3]⟩).1)).getLast? = some 100 :=
  c5_netlify_progress_monotone ⟨true, true, true, true, true, true, true, [7]⟩
    ⟨"video.mp4", 42, [1, 2, 3]⟩ [7] rfl
